import Mathlib

/-!
Verification of the yourssu-infrastructure-system-api deployment workflow.

This file shallowly embeds the parts of the repository that the verified
properties are about:

* `app/services/kubernetes.py` — the manifest classifier, the cluster
  applier `apply_k8s`, the cluster deleter `delete_k8s`, and the batch
  status aggregator `get_all_applications_status`.  Cluster calls are
  network I/O; they are modelled by an environment function that maps each
  attempted call to its outcome.  A manifest's `content` string is only
  ever observed through `yaml.safe_load(...)`, so content is modelled
  directly as the parse result (`Doc`): a raised parse error, a document
  that parses to a non-mapping (on which `.get` raises `AttributeError`),
  or a mapping carrying the fields the code reads (`kind`,
  `metadata.name`, `metadata.namespace`).

* `app/crud/deployments.py`, `app/crud/applications.py`,
  `app/crud/base.py` — the persistence operations used by the deployment
  state machine, over an explicit in-memory database value.

* `app/api/endpoints/deployments.py` — the `request_deployment`,
  `update_state` and `rollback_deployment` endpoint bodies.  The
  auth/token layer is out of scope per the specification; it is modelled
  by a user-id lookup in the database.  Raising an exception is modelled
  by returning `Except.error`, in which case the database value is
  unchanged (Python raises before any session commit on these paths, or
  explicitly calls `db.rollback()`).
-/

namespace YIS

/-- Deployment workflow states, from `app/core/enums.py`. -/
inductive DeploymentState where
  | REQUEST
  | RETURN
  | APPROVAL
deriving DecidableEq, Repr

/-- The result of `yaml.safe_load` on a manifest's `content` string, as the
code observes it: `parseError` models `yaml.safe_load` raising, `nonMapping`
models a successful parse to a non-dict value (so `.get` raises
`AttributeError`), and `mapping` carries the fields the service reads.  The
`msg` arguments model `str(e)` of the raised Python exception. -/
inductive Doc where
  | parseError (msg : String)
  | nonMapping (msg : String)
  | mapping (kind : Option String) (name : Option String) (ns : Option String)
deriving DecidableEq, Repr

def Doc.isMapping : Doc → Bool
  | .mapping _ _ _ => true
  | _ => false

/-- Python `str.lower()` (the code only ever lower-cases ASCII kind names
and error messages). -/
def pyLower (s : String) : String := ⟨s.data.map Char.toLower⟩

/-- `content.get("kind", "").lower()` on a successfully parsed mapping. -/
def Doc.kindLower : Doc → String
  | .mapping kind _ _ => pyLower (kind.getD "")
  | _ => ""

/-- `content.get("metadata", {}).get("name")`. -/
def Doc.metaName : Doc → Option String
  | .mapping _ name _ => name
  | _ => none

/-- `content.get("metadata", {}).get("namespace", "default")`. -/
def Doc.metaNamespace : Doc → String
  | .mapping _ _ ns => ns.getD "default"
  | _ => "default"

/-- `ManifestBase` from `app/schemas/manifests.py`: a `(file_name, content)`
pair; the content is modelled by its parse result. -/
structure ManifestBase where
  file_name : String
  content : Doc
deriving DecidableEq, Repr

/-- `fastapi.HTTPException`, as raised throughout the service layer. -/
structure HTTPException where
  status_code : Nat
  detail : String
deriving DecidableEq, Repr

/-- Python `str(e)` of a (Starlette/FastAPI) `HTTPException`:
`f"{self.status_code}: {self.detail}"`. -/
def HTTPException.str (e : HTTPException) : String :=
  toString e.status_code ++ ": " ++ e.detail

/-- Outcome of `self._apply_yaml_content(manifest.content)` for one manifest,
supplied by the cluster environment: success, a raised
`kubernetes.client.rest.ApiException` with a status code (the case the
per-manifest handler in `apply_k8s` branches on), or a raised
`HTTPException` (the wrapping `_apply_resource` performs on any failure). -/
inductive ApplyOutcome where
  | ok
  | apiExc (status : Nat) (msg : String)
  | httpExc (e : HTTPException)
deriving DecidableEq, Repr

/-- The cluster environment for applies: what happens when the service tries
to apply a given manifest. -/
abbrev ApplyEnv := ManifestBase → ApplyOutcome

def exceptIsOk : Except ε α → Bool
  | .ok _ => true
  | .error _ => false

/-- One iteration of the per-bucket apply loop in `apply_k8s`
(`app/services/kubernetes.py` lines 121-228): apply the manifest; on
`ApiException` convert status 403 to a permission-denied `HTTPException`,
409 to a resource-conflict one, anything else to a 500 naming the file; a
raised `HTTPException` propagates as is. -/
def applyOne (env : ApplyEnv) (m : ManifestBase) : Except HTTPException Unit :=
  match env m with
  | .ok => .ok ()
  | .apiExc status msg =>
      if status == 403 then .error ⟨403, "Permission denied: " ++ msg⟩
      else if status == 409 then .error ⟨409, "Resource conflict: " ++ msg⟩
      else .error ⟨500, "Failed to apply " ++ m.file_name ++ ": " ++ msg⟩
  | .httpExc e => .error e

/-- The five kind buckets built by the classification loops of `apply_k8s`
and `delete_k8s` (`app/services/kubernetes.py` lines 98-118 and 248-268). -/
structure Buckets where
  namespace_manifests : List ManifestBase
  service_manifests : List ManifestBase
  deployment_manifests : List ManifestBase
  ingress_manifests : List ManifestBase
  other_manifests : List ManifestBase
deriving DecidableEq, Repr

def emptyBuckets : Buckets := ⟨[], [], [], [], []⟩

/-- One iteration of the classification loop: parse the content (a raised
exception aborts, carrying `str(e)`), read `kind` lower-cased, and append
the manifest to its bucket; unrecognized kinds go to `other_manifests`. -/
def classifyStep (b : Buckets) (m : ManifestBase) : Except String Buckets :=
  match m.content with
  | .parseError msg => .error msg
  | .nonMapping msg => .error msg
  | .mapping _ _ _ =>
      let k := m.content.kindLower
      if k == "namespace" then
        .ok { b with namespace_manifests := b.namespace_manifests ++ [m] }
      else if k == "service" then
        .ok { b with service_manifests := b.service_manifests ++ [m] }
      else if k == "deployment" then
        .ok { b with deployment_manifests := b.deployment_manifests ++ [m] }
      else if k == "ingress" then
        .ok { b with ingress_manifests := b.ingress_manifests ++ [m] }
      else
        .ok { b with other_manifests := b.other_manifests ++ [m] }

def classifyGo (b : Buckets) : List ManifestBase → Except String Buckets
  | [] => .ok b
  | m :: rest => (classifyStep b m).bind (fun b' => classifyGo b' rest)

/-- The full classification loop over the input manifest list. -/
def classify (manifests : List ManifestBase) : Except String Buckets :=
  classifyGo emptyBuckets manifests

/-- The order in which `apply_k8s` walks the buckets: Namespace, Service,
Deployment, Ingress, then everything else. -/
def applyOrder (b : Buckets) : List ManifestBase :=
  b.namespace_manifests ++ b.service_manifests ++ b.deployment_manifests ++
    b.ingress_manifests ++ b.other_manifests

/-- The apply loops of `apply_k8s`: walk the manifests in bucket order,
appending each successfully applied file name to `applied_files`, stopping
at the first failure.  Returns the accumulated `applied_files` and the
failure, if any. -/
def applyLoop (env : ApplyEnv) : List ManifestBase → List String →
    List String × Option HTTPException
  | [], acc => (acc, none)
  | m :: rest, acc =>
      match applyOne env m with
      | .ok _ => applyLoop env rest (acc ++ [m.file_name])
      | .error e => (acc, some e)

/-- `KubernetesService.apply_k8s` (`app/services/kubernetes.py` lines
86-235).  The first component of the result is the `applied_files` list the
`finally` block prints — the only place the applied set is reported; the
second component is what the caller sees: `None` on success or the raised
`HTTPException`.  Any exception escaping the body (a classification parse
failure or a per-manifest `HTTPException`) is re-wrapped by the outer
handler into a 500 whose detail embeds `str(e)`. -/
def apply_k8s (env : ApplyEnv) (manifests : List ManifestBase) :
    List String × Except HTTPException Unit :=
  match classify manifests with
  | .error msg => ([], .error ⟨500, "Failed to apply manifests: " ++ msg⟩)
  | .ok b =>
      match applyLoop env (applyOrder b) [] with
      | (files, none) => (files, .ok ())
      | (files, some e) =>
          (files, .error ⟨500, "Failed to apply manifests: " ++ e.str⟩)

/-- A deletion API call `delete_k8s` can make, identified the way the code
selects it: which client method, with the name and namespace read from the
manifest's metadata. -/
inductive DeleteCall where
  | deleteDeployment (name : Option String) (ns : String)
  | deleteService (name : Option String) (ns : String)
  | deleteIngress (name : Option String) (ns : String)
  | deleteNamespace (name : Option String)
  | deleteConfigMap (name : Option String) (ns : String)
  | deleteSecret (name : Option String) (ns : String)
deriving DecidableEq, Repr

/-- Outcome of one deletion API call, supplied by the cluster environment:
success, or a raised exception whose `str(e)` is `msg`.  The code
distinguishes "not found" errors purely by searching `str(e).lower()` for
the substring `"not found"`. -/
inductive DeleteOutcome where
  | ok
  | exc (msg : String)
deriving DecidableEq, Repr

abbrev DeleteEnv := DeleteCall → DeleteOutcome

/-- `bs` begins with `as` (character lists). -/
def charsStart : List Char → List Char → Bool
  | [], _ => true
  | _ :: _, [] => false
  | p :: ps, t :: ts => p == t && charsStart ps ts

/-- The pattern occurs somewhere in the text (character lists). -/
def charsOccur (pat : List Char) : List Char → Bool
  | [] => charsStart pat []
  | t :: ts => charsStart pat (t :: ts) || charsOccur pat ts

/-- Python `pat in s`: substring containment. -/
def strContains (s pat : String) : Bool :=
  charsOccur pat.data s.data

/-- One planned step of `delete_k8s`: either a deletion call together with
the resource description used in the failure detail (for example
`"deployment my-app"`), or a silent skip (the `other_manifests` loop has no
branch for kinds other than configmap/secret). -/
inductive PlannedDelete where
  | skip
  | call (c : DeleteCall) (desc : String)
deriving DecidableEq, Repr

/-- Python `f"{x}"` on an optional string (`None` prints as `"None"`). -/
def pyStr (o : Option String) : String := o.getD "None"

/-- The deletion plan for the deployment bucket
(`app/services/kubernetes.py` lines 271-286). -/
def planDeployment (m : ManifestBase) : PlannedDelete :=
  .call (.deleteDeployment m.content.metaName m.content.metaNamespace)
    ("deployment " ++ pyStr m.content.metaName)

/-- The deletion plan for the service bucket (lines 288-303). -/
def planService (m : ManifestBase) : PlannedDelete :=
  .call (.deleteService m.content.metaName m.content.metaNamespace)
    ("service " ++ pyStr m.content.metaName)

/-- The deletion plan for the ingress bucket (lines 305-320). -/
def planIngress (m : ManifestBase) : PlannedDelete :=
  .call (.deleteIngress m.content.metaName m.content.metaNamespace)
    ("ingress " ++ pyStr m.content.metaName)

/-- The deletion plan for the namespace bucket (lines 322-333). -/
def planNamespace (m : ManifestBase) : PlannedDelete :=
  .call (.deleteNamespace m.content.metaName)
    ("namespace " ++ pyStr m.content.metaName)

/-- The deletion plan for the other bucket (lines 335-358): only configmap
and secret kinds get a deletion call; any other kind falls through the
`if/elif` with no else branch, so nothing is attempted for it. -/
def planOther (m : ManifestBase) : PlannedDelete :=
  let k := m.content.kindLower
  if k == "configmap" then
    .call (.deleteConfigMap m.content.metaName m.content.metaNamespace)
      (k ++ " " ++ pyStr m.content.metaName)
  else if k == "secret" then
    .call (.deleteSecret m.content.metaName m.content.metaNamespace)
      (k ++ " " ++ pyStr m.content.metaName)
  else
    .skip

/-- The full deletion schedule: Deployment, Service, Ingress, Namespace,
then Other — the order of the loops in `delete_k8s` (line 270). -/
def deletePlan (b : Buckets) : List PlannedDelete :=
  b.deployment_manifests.map planDeployment ++
    b.service_manifests.map planService ++
    b.ingress_manifests.map planIngress ++
    b.namespace_manifests.map planNamespace ++
    b.other_manifests.map planOther

/-- Run the deletion loops: perform each planned call in order; a failure
whose message contains "not found" is swallowed and the loop continues; any
other failure raises an `HTTPException` immediately, abandoning the rest.
Returns the list of calls actually made and the failure, if any. -/
def runDeletes (env : DeleteEnv) : List PlannedDelete →
    List DeleteCall × Option HTTPException
  | [] => ([], none)
  | .skip :: rest => runDeletes env rest
  | .call c desc :: rest =>
      match env c with
      | .ok =>
          let r := runDeletes env rest
          (c :: r.1, r.2)
      | .exc msg =>
          if strContains (pyLower msg) "not found" then
            let r := runDeletes env rest
            (c :: r.1, r.2)
          else
            ([c], some ⟨500, "Failed to delete " ++ desc ++ ": " ++ msg⟩)

/-- `KubernetesService.delete_k8s` (`app/services/kubernetes.py` lines
237-364).  First component: the deletion calls actually issued to the
cluster; second: the caller-visible result.  As in `apply_k8s`, any
exception escaping the body is re-wrapped by the outer handler into a 500
embedding `str(e)`. -/
def delete_k8s (env : DeleteEnv) (manifests : List ManifestBase) :
    List DeleteCall × Except HTTPException Unit :=
  match classify manifests with
  | .error msg => ([], .error ⟨500, "Failed to delete manifests: " ++ msg⟩)
  | .ok b =>
      match runDeletes env (deletePlan b) with
      | (calls, none) => (calls, .ok ())
      | (calls, some e) =>
          (calls, .error ⟨500, "Failed to delete manifests: " ++ e.str⟩)

/-- The `Application` row from `app/models/models.py`. -/
structure App where
  id : Nat
  name : String
  description : String
  is_approved : Bool
  created_at : Nat
  updated_at : Nat
  deleted_at : Option Nat
  user_id : Nat
deriving DecidableEq, Repr

/-- The `Deployment` row from `app/models/models.py`. -/
structure Dep where
  id : Nat
  domain_name : String
  cpu_requests : String
  memory_requests : String
  cpu_limits : String
  memory_limits : String
  port : Nat
  image_url : Option String
  replicas : Nat
  message : Option String
  comment : Option String
  state : DeploymentState
  is_applied : Bool
  created_at : Nat
  updated_at : Nat
  deleted_at : Option Nat
  application_id : Nat
  user_id : Nat
  admin_id : Option Nat
deriving DecidableEq, Repr

/-- The `Manifest` row from `app/models/models.py`. -/
structure ManifestRec where
  id : Nat
  file_name : String
  content : Doc
  created_at : Nat
  updated_at : Nat
  deleted_at : Option Nat
  deployment_id : Nat
deriving DecidableEq, Repr

/-- The persistence store: its tables, in insertion order.  Users are out of
scope per the specification; only their ids are kept, enough for the
`crud_user.get` existence checks the endpoints perform. -/
structure DB where
  users : List Nat
  applications : List App
  deployments : List Dep
  manifests : List ManifestRec
deriving DecidableEq, Repr

/-- Mutate the first row matched by an ORM `query.filter(...).first()`
followed by attribute assignment and commit; no match leaves the table
unchanged (the CRUD methods guard with `if db_obj:`). -/
def updateFirst (p : α → Bool) (f : α → α) : List α → List α
  | [] => []
  | x :: xs => if p x then f x :: xs else x :: updateFirst p f xs

/-- The `Deployment.manifests` relationship: manifest rows joined on
`deployment_id` with `deleted_at == None` (the `primaryjoin` in
`app/models/models.py` line 70), turned into the `ManifestBase` values the
endpoints build from them. -/
def depManifests (db : DB) (deployment_id : Nat) : List ManifestBase :=
  (db.manifests.filter
      (fun mr => mr.deployment_id == deployment_id && mr.deleted_at == none)).map
    (fun mr => ⟨mr.file_name, mr.content⟩)

namespace CRUDDeployment

/-- `CRUDBase.get` for deployments: first row with the id, excluding
soft-deleted rows. -/
def get (db : DB) (id : Nat) : Option Dep :=
  db.deployments.find? (fun d => d.id == id && d.deleted_at == none)

/-- `CRUDDeployment.get_applied`: the first non-deleted row of the
application with `is_applied == True`. -/
def get_applied (db : DB) (application_id : Nat) : Option Dep :=
  db.deployments.find?
    (fun d => d.application_id == application_id && d.is_applied && d.deleted_at == none)

/-- Stable insertion into a list sorted by strictly descending key.  Used to
model `ORDER BY created_at DESC` (ties keep table order, matching a stable
sort). -/
def insertDesc (key : Dep → Nat) (d : Dep) : List Dep → List Dep
  | [] => [d]
  | x :: xs => if key d > key x then d :: x :: xs else x :: insertDesc key d xs

def sortByDesc (key : Dep → Nat) (l : List Dep) : List Dep :=
  l.foldl (fun acc d => insertDesc key d acc) []

/-- `CRUDDeployment.get_by_application` as called by `request_deployment`
(all defaults: `skip=0, limit=100, order_by=CREATED_AT_DESC`): non-deleted
rows of the application, ordered by `created_at` descending, first 100. -/
def get_by_application (db : DB) (application_id : Nat)
    (skip : Nat := 0) (limit : Nat := 100) : List Dep :=
  (((sortByDesc Dep.created_at
        (db.deployments.filter
          (fun d => d.application_id == application_id && d.deleted_at == none))).drop
      skip).take limit)

/-- `CRUDDeployment.update_applied`: flip `is_applied` on the first
non-deleted row with the id and commit; nothing else changes. -/
def update_applied (db : DB) (id : Nat) (is_applied : Bool) : DB :=
  { db with
      deployments :=
        updateFirst (fun d => d.id == id && d.deleted_at == none)
          (fun d => { d with is_applied := is_applied }) db.deployments }

/-- `CRUDDeployment.update_state`: on the first non-deleted row with the id,
set `admin_id`, `state`, `comment` and `updated_at`; additionally set
`is_applied := True` when the new state is APPROVAL. -/
def update_state (db : DB) (id : Nat) (admin_id : Option Nat)
    (state : DeploymentState) (comment : Option String) (now : Nat) : DB :=
  { db with
      deployments :=
        updateFirst (fun d => d.id == id && d.deleted_at == none)
          (fun d =>
            { d with
                admin_id := admin_id
                state := state
                is_applied := if state == .APPROVAL then true else d.is_applied
                comment := comment
                updated_at := now }) db.deployments }

/-- `CRUDBase.create` for deployments: append a new row with the request's
resource spec, the defaults `state = REQUEST`, `is_applied = False`,
`comment = None`, `admin_id = None`, and a fresh id. -/
def create (db : DB) (d : Dep) : DB :=
  { db with deployments := db.deployments ++ [d] }

end CRUDDeployment

namespace CRUDApplication

/-- `CRUDBase.get` for applications. -/
def get (db : DB) (id : Nat) : Option App :=
  db.applications.find? (fun a => a.id == id && a.deleted_at == none)

/-- `CRUDApplication.approve`: set `is_approved := True` on the first
non-deleted row with the id. -/
def approve (db : DB) (id : Nat) : DB :=
  { db with
      applications :=
        updateFirst (fun a => a.id == id && a.deleted_at == none)
          (fun a => { a with is_approved := true }) db.applications }

end CRUDApplication

namespace CRUDManifest

/-- `CRUDBase.create` for manifests: append a new row. -/
def create (db : DB) (mr : ManifestRec) : DB :=
  { db with manifests := db.manifests ++ [mr] }

end CRUDManifest

/-- The `DeploymentCreate` payload from `app/schemas/deployments.py`: the
resource spec of a requested deployment. -/
structure DeploymentCreate where
  application_id : Nat
  domain_name : String
  cpu_requests : String
  memory_requests : String
  cpu_limits : String
  memory_limits : String
  port : Nat
  image_url : Option String
  replicas : Nat
  message : Option String
deriving DecidableEq, Repr

/-- The row `crud_deployment.create` inserts for a request: the payload's
fields plus the model defaults (`state = REQUEST`, `is_applied = False`,
no comment, no admin) and a fresh id. -/
def mkRequestedDep (depIn : DeploymentCreate) (user_id newId now : Nat) : Dep :=
  { id := newId
    domain_name := depIn.domain_name
    cpu_requests := depIn.cpu_requests
    memory_requests := depIn.memory_requests
    cpu_limits := depIn.cpu_limits
    memory_limits := depIn.memory_limits
    port := depIn.port
    image_url := depIn.image_url
    replicas := depIn.replicas
    message := depIn.message
    comment := none
    state := .REQUEST
    is_applied := false
    created_at := now
    updated_at := now
    deleted_at := none
    application_id := depIn.application_id
    user_id := user_id
    admin_id := none }

/-- The manifest-creation loop of `request_deployment`: one
`crud_manifest.create` per submitted manifest, with auto-incremented ids. -/
def createManifestRows (deployment_id now : Nat) :
    DB → Nat → List ManifestBase → DB
  | db, _, [] => db
  | db, nextId, m :: rest =>
      createManifestRows deployment_id now
        (CRUDManifest.create db
          ⟨nextId, m.file_name, m.content, now, now, none, deployment_id⟩)
        (nextId + 1) rest

namespace Endpoints

/-- `request_deployment` (`app/api/endpoints/deployments.py` lines 27-88),
up to persistence: resolve the application and requesting user; reject if
any deployment returned by `get_by_application` — called with its defaults,
so only the first 100 non-deleted rows ordered by `created_at` descending —
is in REQUEST or RETURN state; otherwise insert the deployment row and its
manifest rows.  The guard's rejection is raised outside any handler, so it
surfaces unwrapped as a 400.  Email notification is out of scope. -/
def request_deployment (db : DB) (depIn : DeploymentCreate)
    (manifests : List ManifestBase) (user_id newDepId manIdStart now : Nat) :
    Except HTTPException DB :=
  match CRUDApplication.get db depIn.application_id with
  | none => .error ⟨404, "application not found"⟩
  | some application =>
      if db.users.contains user_id = false then
        .error ⟨404, "user not found"⟩
      else
        match (CRUDDeployment.get_by_application db application.id).find?
            (fun d => d.state == .REQUEST || d.state == .RETURN) with
        | some d =>
            .error ⟨400, "deployment already in progress (ID: " ++ toString d.id ++ ")"⟩
        | none =>
            let db1 :=
              CRUDDeployment.create db (mkRequestedDep depIn user_id newDepId now)
            .ok (createManifestRows newDepId now db1 manIdStart manifests)

/-- `update_state` (`app/api/endpoints/deployments.py` lines 308-363): the
admin evaluation of a deployment request.  On APPROVAL the deployment's
manifests are applied to the cluster first; a raised apply error propagates
untouched and nothing has been persisted at that point.  Only on apply
success: unset `is_applied` on the application's currently applied
deployment if any, persist the APPROVAL (which sets `is_applied := True` on
the target), and mark the application approved.  Non-APPROVAL evaluations
only persist state, admin and comment.  A missing deployment raises
(`deployment.manifests` on `None`) before any persistence.  The persistence
steps themselves are pure in this model, so the `except` rollback branch of
the source has no counterpart. -/
def update_state (env : ApplyEnv) (db : DB) (deployment_id : Nat)
    (admin_user_id : Nat) (stateIn : DeploymentState) (commentIn : Option String)
    (now : Nat) : Except HTTPException DB :=
  if db.users.contains admin_user_id = false then
    .error ⟨404, "user not found"⟩
  else
    match CRUDDeployment.get db deployment_id with
    | none => .error ⟨500, "AttributeError: NoneType object has no attribute"⟩
    | some deployment =>
        if stateIn == .APPROVAL then
          match (apply_k8s env (depManifests db deployment.id)).2 with
          | .error e => .error e
          | .ok _ =>
              let db1 :=
                match CRUDDeployment.get_applied db deployment.application_id with
                | some applied_deployment =>
                    CRUDDeployment.update_applied db applied_deployment.id false
                | none => db
              let db2 :=
                CRUDDeployment.update_state db1 deployment_id (some admin_user_id)
                  stateIn commentIn now
              .ok (CRUDApplication.approve db2 deployment.application_id)
        else
          .ok (CRUDDeployment.update_state db deployment_id (some admin_user_id)
                stateIn commentIn now)

/-- The catch-all wrapping in `rollback_deployment`: every exception raised
inside its `try` — including the endpoint's own 404/400 rejections and any
apply failure — is re-wrapped into a 500 embedding `str(e)`, after
`db.rollback()`. -/
def rollbackWrap (e : HTTPException) : HTTPException :=
  ⟨500, "Failed to rollback deployment: " ++ e.str⟩

/-- `rollback_deployment` (`app/api/endpoints/deployments.py` lines
449-491).  The Bool records whether `apply_k8s` was invoked.  Look up the
target (`previous_deployment`) and the application's currently applied
deployment; reject when either is missing or the target is not in APPROVAL
state (all before any cluster call); otherwise re-apply the target's
manifests and, on success, flip `is_applied` off the current deployment and
onto the target.  A missing target raises `AttributeError` at
`previous_deployment.application_id` before its own not-found check. -/
def rollback_deployment (env : ApplyEnv) (db : DB) (deployment_id : Nat) :
    Except HTTPException DB × Bool :=
  match CRUDDeployment.get db deployment_id with
  | none =>
      (.error ⟨500, "Failed to rollback deployment: AttributeError"⟩, false)
  | some previous_deployment =>
      match CRUDDeployment.get_applied db previous_deployment.application_id with
      | none =>
          (.error (rollbackWrap ⟨404, "current deployment not found"⟩), false)
      | some current_deployment =>
          if previous_deployment.state != .APPROVAL then
            (.error (rollbackWrap ⟨400, "only approved deployments can be rolled back"⟩),
              false)
          else
            match (apply_k8s env (depManifests db previous_deployment.id)).2 with
            | .error e => (.error (rollbackWrap e), true)
            | .ok _ =>
                let db1 :=
                  CRUDDeployment.update_applied db current_deployment.id false
                let db2 :=
                  CRUDDeployment.update_applied db1 previous_deployment.id true
                (.ok db2, true)

end Endpoints

/-- The fields of a per-application status report that identify it; the
report's cluster-derived payload is opaque to the aggregation loop. -/
structure DeploymentStatus where
  application_id : Nat
  name : String
deriving DecidableEq, Repr

/-- The cluster environment for status queries: the outcome of
`get_application_status(application_id=a.id, deployment_name=a.name,
namespace=a.name)` for each application. -/
abbrev StatusEnv := App → Except HTTPException DeploymentStatus

/-- The fan-out loop of `get_all_applications_status`: query each
application; both `except HTTPException` and `except Exception` branches
`continue`, skipping the failed application. -/
def getAllLoop (env : StatusEnv) : List App → List DeploymentStatus
  | [] => []
  | application :: rest =>
      match env application with
      | .ok s => s :: getAllLoop env rest
      | .error _ => getAllLoop env rest

/-- `KubernetesService.get_all_applications_status`
(`app/services/kubernetes.py` lines 533-566): best-effort aggregation; the
loop body never lets a per-application failure escape, so the call
returns the collected statuses. -/
def get_all_applications_status (env : StatusEnv) (applications : List App) :
    Except HTTPException (List DeploymentStatus) :=
  .ok (getAllLoop env applications)

/-! ## Helper lemmas about classification and the apply loop -/

instance exceptDecEq {ε α : Type} [DecidableEq ε] [DecidableEq α] :
    DecidableEq (Except ε α) := fun x y =>
  match x, y with
  | .ok a, .ok b =>
      if h : a = b then isTrue (by rw [h])
      else isFalse (by intro hh; cases hh; exact h rfl)
  | .error a, .error b =>
      if h : a = b then isTrue (by rw [h])
      else isFalse (by intro hh; cases hh; exact h rfl)
  | .ok _, .error _ => isFalse (by intro hh; cases hh)
  | .error _, .ok _ => isFalse (by intro hh; cases hh)

/-- A manifest the classifier routes to `other_manifests`: its lower-cased
kind is none of the four recognized ones. -/
def isOtherKind (m : ManifestBase) : Bool :=
  !(m.content.kindLower == "namespace" || m.content.kindLower == "service" ||
    m.content.kindLower == "deployment" || m.content.kindLower == "ingress")

theorem classifyGo_spec (ms : List ManifestBase) (b : Buckets)
    (h : ∀ m ∈ ms, m.content.isMapping = true) :
    classifyGo b ms = .ok
      { namespace_manifests :=
          b.namespace_manifests ++ ms.filter (fun m => m.content.kindLower == "namespace")
        service_manifests :=
          b.service_manifests ++ ms.filter (fun m => m.content.kindLower == "service")
        deployment_manifests :=
          b.deployment_manifests ++ ms.filter (fun m => m.content.kindLower == "deployment")
        ingress_manifests :=
          b.ingress_manifests ++ ms.filter (fun m => m.content.kindLower == "ingress")
        other_manifests := b.other_manifests ++ ms.filter isOtherKind } := by
  induction ms generalizing b with
  | nil => simp [classifyGo]
  | cons m rest ih =>
      have hm : m.content.isMapping = true := h m (List.mem_cons_self _ _)
      have hrest : ∀ m' ∈ rest, m'.content.isMapping = true := fun m' hm' =>
        h m' (List.mem_cons_of_mem _ hm')
      cases hc : m.content with
      | parseError msg => rw [hc] at hm; simp [Doc.isMapping] at hm
      | nonMapping msg => rw [hc] at hm; simp [Doc.isMapping] at hm
      | mapping kind name ns =>
          have hk : m.content.kindLower = pyLower (kind.getD "") := by rw [hc]; rfl
          have hred : (Doc.mapping kind name ns).kindLower = pyLower (kind.getD "") := rfl
          simp only [classifyGo, classifyStep, hc, hred]
          split_ifs with h1 h2 h3 h4
          · have e := eq_of_beq h1
            simp only [Except.bind]
            rw [ih _ hrest]
            simp +decide [List.filter_cons, isOtherKind, hk, e, List.append_assoc]
          · have e := eq_of_beq h2
            simp only [Except.bind]
            rw [ih _ hrest]
            simp +decide [List.filter_cons, isOtherKind, hk, e, List.append_assoc]
          · have e := eq_of_beq h3
            simp only [Except.bind]
            rw [ih _ hrest]
            simp +decide [List.filter_cons, isOtherKind, hk, e, List.append_assoc]
          · have e := eq_of_beq h4
            simp only [Except.bind]
            rw [ih _ hrest]
            simp +decide [List.filter_cons, isOtherKind, hk, e, List.append_assoc]
          · simp only [Except.bind]
            rw [ih _ hrest]
            simp +decide [List.filter_cons, isOtherKind, hk, h1, h2, h3, h4,
              List.append_assoc]

theorem classify_spec (ms : List ManifestBase)
    (h : ∀ m ∈ ms, m.content.isMapping = true) :
    classify ms = .ok
      { namespace_manifests := ms.filter (fun m => m.content.kindLower == "namespace")
        service_manifests := ms.filter (fun m => m.content.kindLower == "service")
        deployment_manifests := ms.filter (fun m => m.content.kindLower == "deployment")
        ingress_manifests := ms.filter (fun m => m.content.kindLower == "ingress")
        other_manifests := ms.filter isOtherKind } := by
  have := classifyGo_spec ms emptyBuckets h
  simpa [classify, emptyBuckets] using this

theorem classifyGo_error (ms : List ManifestBase) (b : Buckets)
    (h : ∃ m ∈ ms, m.content.isMapping = false) :
    ∃ msg, classifyGo b ms = .error msg := by
  induction ms generalizing b with
  | nil => rcases h with ⟨m, hm, _⟩; cases hm
  | cons m rest ih =>
      cases hc : m.content with
      | parseError msg => exact ⟨msg, by simp [classifyGo, classifyStep, hc, Except.bind]⟩
      | nonMapping msg => exact ⟨msg, by simp [classifyGo, classifyStep, hc, Except.bind]⟩
      | mapping kind name ns =>
          rcases h with ⟨m', hm', hbad⟩
          rcases List.mem_cons.mp hm' with rfl | hm'
          · rw [hc] at hbad; simp [Doc.isMapping] at hbad
          · have hex : ∃ m'' ∈ rest, m''.content.isMapping = false := ⟨m', hm', hbad⟩
            simp only [classifyGo, classifyStep, hc]
            split_ifs <;> (simp only [Except.bind]; exact ih _ hex)

theorem applyLoop_all_ok (env : ApplyEnv) (order : List ManifestBase)
    (acc : List String) (h : ∀ m ∈ order, applyOne env m = .ok ()) :
    applyLoop env order acc = (acc ++ order.map (·.file_name), none) := by
  induction order generalizing acc with
  | nil => simp [applyLoop]
  | cons m rest ih =>
      have hm := h m (List.mem_cons_self _ _)
      have hrest : ∀ m' ∈ rest, applyOne env m' = .ok () := fun m' hm' =>
        h m' (List.mem_cons_of_mem _ hm')
      simp [applyLoop, hm, ih _ hrest]

theorem applyLoop_fst (env : ApplyEnv) (order : List ManifestBase)
    (acc : List String) :
    (applyLoop env order acc).1 =
      acc ++ (order.takeWhile (fun m => exceptIsOk (applyOne env m))).map (·.file_name) := by
  induction order generalizing acc with
  | nil => simp [applyLoop]
  | cons m rest ih =>
      cases hm : applyOne env m with
      | ok _ => simp [applyLoop, hm, List.takeWhile_cons, exceptIsOk, ih]
      | error e => simp [applyLoop, hm, List.takeWhile_cons, exceptIsOk]

theorem applyLoop_none_iff (env : ApplyEnv) (order : List ManifestBase)
    (acc : List String) :
    (applyLoop env order acc).2 = none ↔ ∀ m ∈ order, exceptIsOk (applyOne env m) = true := by
  induction order generalizing acc with
  | nil => simp [applyLoop]
  | cons m rest ih =>
      cases hm : applyOne env m with
      | ok _ => simp [applyLoop, hm, ih, exceptIsOk]
      | error e => simp [applyLoop, hm, exceptIsOk]

/-! ## Helper lemmas about the deletion loop and row updates -/

def plannedCall : PlannedDelete → Option DeleteCall
  | .skip => none
  | .call c _ => some c

/-- A delete outcome the loop tolerates: success, or a failure whose message
contains "not found" (case-insensitively), which the code swallows. -/
def benign (env : DeleteEnv) (c : DeleteCall) : Prop :=
  env c = .ok ∨ ∃ msg, env c = .exc msg ∧ strContains (pyLower msg) "not found" = true

theorem runDeletes_skip_middle (env : DeleteEnv) (xs ys : List PlannedDelete) :
    runDeletes env (xs ++ PlannedDelete.skip :: ys) = runDeletes env (xs ++ ys) := by
  induction xs with
  | nil => simp [runDeletes]
  | cons x xs ih =>
      cases x with
      | skip => simpa [runDeletes] using ih
      | call c desc =>
          simp only [List.cons_append, runDeletes]
          cases env c <;> simp [ih]

theorem runDeletes_all_benign (env : DeleteEnv) (plan : List PlannedDelete)
    (h : ∀ p ∈ plan, ∀ c desc, p = .call c desc → benign env c) :
    runDeletes env plan = (plan.filterMap plannedCall, none) := by
  induction plan with
  | nil => rfl
  | cons p rest ih =>
      have hrest : ∀ p' ∈ rest, ∀ c desc, p' = .call c desc → benign env c :=
        fun p' hp' c desc hpc => h p' (List.mem_cons_of_mem _ hp') c desc hpc
      cases p with
      | skip => simp [runDeletes, plannedCall, ih hrest]
      | call c desc =>
          rcases h _ (List.mem_cons_self _ _) c desc rfl with hok | ⟨msg, hexc, hnf⟩
          · simp [runDeletes, hok, plannedCall, ih hrest]
          · simp [runDeletes, hexc, hnf, plannedCall, ih hrest]

theorem map_ite_id {p : α → Bool} {f : α → α} (l : List α)
    (h : ∀ x ∈ l, p x = false) :
    l.map (fun x => if p x then f x else x) = l := by
  induction l with
  | nil => rfl
  | cons x xs ih =>
      have hx := h x (List.mem_cons_self _ _)
      simp [hx, ih (fun y hy => h y (List.mem_cons_of_mem _ hy))]

theorem updateFirst_eq_map {p : α → Bool} {f : α → α} (l : List α)
    (h : l.countP p ≤ 1) :
    updateFirst p f l = l.map (fun x => if p x then f x else x) := by
  induction l with
  | nil => rfl
  | cons x xs ih =>
      rw [List.countP_cons] at h
      by_cases hx : p x = true
      · rw [if_pos hx] at h
        have h0 : xs.countP p = 0 := by omega
        have hall : ∀ y ∈ xs, p y = false := by
          intro y hy
          have := List.countP_eq_zero.mp h0 y hy
          simpa using this
        simp [updateFirst, hx, map_ite_id xs hall]
      · rw [if_neg hx] at h
        have hx' : p x = false := by simpa using hx
        have hle : xs.countP p ≤ 1 := by omega
        simp [updateFirst, hx', ih hle]

theorem countP_key_le_one {key : α → Nat} (l : List α)
    (h : (l.map key).Nodup) (i : Nat) (q : α → Bool) :
    l.countP (fun x => key x == i && q x) ≤ 1 := by
  induction l with
  | nil => simp
  | cons x xs ih =>
      rw [List.map_cons, List.nodup_cons] at h
      rw [List.countP_cons]
      by_cases hx : key x = i
      · have h0 : xs.countP (fun x => key x == i && q x) = 0 := by
          rw [List.countP_eq_zero]
          intro a ha
          have hne : key a ≠ i := by
            intro hk
            exact h.1 (by rw [← hx] at hk; exact hk ▸ List.mem_map_of_mem key ha)
          simp [hne]
        rw [h0]
        split_ifs <;> omega
      · have h2 := ih h.2
        have hpred : (key x == i && q x) = false := by simp [hx]
        simpa [hpred] using h2

/-! ## Shared facts about `apply_k8s` -/

/-- When every manifest parses to a mapping and every apply succeeds,
`apply_k8s` succeeds and its `applied_files` log lists the manifests
bucket-by-bucket — Namespace, Service, Deployment, Ingress, Other — with
the original relative order kept inside each bucket. -/
theorem apply_k8s_all_ok (env : ApplyEnv) (ms : List ManifestBase)
    (hparse : ∀ m ∈ ms, m.content.isMapping = true)
    (hok : ∀ m ∈ ms, env m = .ok) :
    (apply_k8s env ms).1 =
      (ms.filter (fun m => m.content.kindLower == "namespace") ++
        ms.filter (fun m => m.content.kindLower == "service") ++
        ms.filter (fun m => m.content.kindLower == "deployment") ++
        ms.filter (fun m => m.content.kindLower == "ingress") ++
        ms.filter isOtherKind).map (·.file_name) ∧
    (apply_k8s env ms).2 = .ok () := by
  have hcl := classify_spec ms hparse
  have hsub : ∀ m ∈
      ms.filter (fun m => m.content.kindLower == "namespace") ++
        ms.filter (fun m => m.content.kindLower == "service") ++
        ms.filter (fun m => m.content.kindLower == "deployment") ++
        ms.filter (fun m => m.content.kindLower == "ingress") ++
        ms.filter isOtherKind, m ∈ ms := by
    intro m hm
    simp only [List.mem_append] at hm
    rcases hm with (((h | h) | h) | h) | h <;> exact (List.mem_filter.mp h).1
  have hall : ∀ m ∈
      ms.filter (fun m => m.content.kindLower == "namespace") ++
        ms.filter (fun m => m.content.kindLower == "service") ++
        ms.filter (fun m => m.content.kindLower == "deployment") ++
        ms.filter (fun m => m.content.kindLower == "ingress") ++
        ms.filter isOtherKind, applyOne env m = .ok () := by
    intro m hm
    simp [applyOne, hok m (hsub m hm)]
  simp only [apply_k8s, hcl]
  rw [show applyOrder
      { namespace_manifests := ms.filter (fun m => m.content.kindLower == "namespace")
        service_manifests := ms.filter (fun m => m.content.kindLower == "service")
        deployment_manifests := ms.filter (fun m => m.content.kindLower == "deployment")
        ingress_manifests := ms.filter (fun m => m.content.kindLower == "ingress")
        other_manifests := ms.filter isOtherKind } =
      ms.filter (fun m => m.content.kindLower == "namespace") ++
        ms.filter (fun m => m.content.kindLower == "service") ++
        ms.filter (fun m => m.content.kindLower == "deployment") ++
        ms.filter (fun m => m.content.kindLower == "ingress") ++
        ms.filter isOtherKind from rfl]
  rw [applyLoop_all_ok env _ [] hall]
  exact ⟨by simp, rfl⟩

/-! ## Claim C1 -/

def nsManifest : ManifestBase :=
  ⟨"namespace.yaml", .mapping (some "Namespace") (some "app") none⟩

def svcManifest : ManifestBase :=
  ⟨"service.yaml", .mapping (some "Service") (some "app") (some "app")⟩

def depManifest : ManifestBase :=
  ⟨"deployment.yaml", .mapping (some "Deployment") (some "app") (some "app")⟩

def ingManifest : ManifestBase :=
  ⟨"ingress.yaml", .mapping (some "Ingress") (some "app") (some "app")⟩

/-- An environment in which every cluster apply succeeds. -/
def allOkEnv : ApplyEnv := fun _ => .ok

/-- C1: `apply_k8s` applies manifests grouped by kind in the fixed order
Namespace, Service, Deployment, Ingress, then all other kinds, preserving
the original relative input order within each kind group (stated for every
input whose documents parse and every environment in which the applies
succeed; the recorded apply order is the `applied_files` log). -/
theorem C1_apply_order (env : ApplyEnv) (ms : List ManifestBase)
    (hparse : ∀ m ∈ ms, m.content.isMapping = true)
    (hok : ∀ m ∈ ms, env m = .ok) :
    (apply_k8s env ms).1 =
      (ms.filter (fun m => m.content.kindLower == "namespace") ++
        ms.filter (fun m => m.content.kindLower == "service") ++
        ms.filter (fun m => m.content.kindLower == "deployment") ++
        ms.filter (fun m => m.content.kindLower == "ingress") ++
        ms.filter isOtherKind).map (·.file_name) ∧
    (apply_k8s env ms).2 = .ok () :=
  apply_k8s_all_ok env ms hparse hok

/-- C1 witness: on the input ordered [Ingress, Deployment, Namespace,
Service], the observed apply order is [Namespace, Service, Deployment,
Ingress]. -/
theorem C1_apply_order_witness :
    (apply_k8s allOkEnv [ingManifest, depManifest, nsManifest, svcManifest]).1 =
      ["namespace.yaml", "service.yaml", "deployment.yaml", "ingress.yaml"] ∧
    (apply_k8s allOkEnv [ingManifest, depManifest, nsManifest, svcManifest]).2 = .ok () := by
  have h := C1_apply_order allOkEnv [ingManifest, depManifest, nsManifest, svcManifest]
    (by decide) (by decide)
  exact ⟨h.1.trans (by decide), h.2⟩

/-! ## Claim C6 -/

def c6aManifest : ManifestBase :=
  ⟨"a.yaml", .mapping (some "Namespace") (some "a") none⟩

def c6bManifest : ManifestBase :=
  ⟨"b.yaml", .mapping (some "Namespace") (some "b") none⟩

/-- An environment in which applying `b.yaml` raises a generic
`ApiException` while everything else succeeds. -/
def c6Env : ApplyEnv := fun m =>
  if m.file_name == "b.yaml" then .apiExc 500 "boom" else .ok

/-- C6 counterexample: the applied-before-failure file list is not
observable to the caller.  `apply_k8s` returns `None` on success and raises
on failure; the `applied_files` list is only printed in the `finally` block
(the first component here).  Two runs — one where `a.yaml` was applied
before the failure, one where nothing was — produce the identical
caller-visible outcome (the same raised `HTTPException`, whose detail names
only the failing file), so no caller can recover the applied list from what
the operation returns or raises. -/
theorem C6_counterexample :
    (apply_k8s c6Env [c6aManifest, c6bManifest]).2 = (apply_k8s c6Env [c6bManifest]).2 ∧
    (apply_k8s c6Env [c6aManifest, c6bManifest]).1 = ["a.yaml"] ∧
    (apply_k8s c6Env [c6bManifest]).1 = [] ∧
    (apply_k8s c6Env [c6aManifest, c6bManifest]).2 =
      .error ⟨500, "Failed to apply manifests: 500: Failed to apply b.yaml: boom"⟩ := by
  decide

/-- C6 amended: the file names of the manifests successfully applied before
any failure are printed (the `finally` block's `applied_files` log — the
first component), even when the operation ultimately raises: the log equals
the apply order's longest successfully-applied prefix, and the operation
succeeds exactly when every manifest in the order applies cleanly. -/
theorem C6_partial_apply_logged (env : ApplyEnv) (ms : List ManifestBase)
    (b : Buckets) (h : classify ms = .ok b) :
    (apply_k8s env ms).1 =
      ((applyOrder b).takeWhile (fun m => exceptIsOk (applyOne env m))).map (·.file_name) ∧
    ((apply_k8s env ms).2 = .ok () ↔
      ∀ m ∈ applyOrder b, exceptIsOk (applyOne env m) = true) := by
  have h1 := applyLoop_fst env (applyOrder b) []
  have h2 := applyLoop_none_iff env (applyOrder b) []
  simp only [apply_k8s, h]
  rcases hl : applyLoop env (applyOrder b) [] with ⟨files, err⟩
  rw [hl] at h1 h2
  cases err with
  | none =>
      refine ⟨by simpa using h1, ?_⟩
      simpa using h2
  | some e =>
      refine ⟨by simpa using h1, ?_⟩
      simp only at h2 ⊢
      constructor
      · intro hcontra; cases hcontra
      · intro hall
        exact absurd (h2.mpr hall) (by simp)

/-- C6 amended witness: a concrete partial failure where the printed log
carries the applied prefix while the caller sees only the error. -/
theorem C6_partial_apply_logged_witness :
    (apply_k8s c6Env [c6aManifest, c6bManifest]).1 = ["a.yaml"] ∧
    ¬ (apply_k8s c6Env [c6aManifest, c6bManifest]).2 = .ok () := by
  have h := C6_partial_apply_logged c6Env [c6aManifest, c6bManifest]
    { namespace_manifests := [c6aManifest, c6bManifest]
      service_manifests := []
      deployment_manifests := []
      ingress_manifests := []
      other_manifests := [] } (by decide)
  refine ⟨h.1.trans (by decide), ?_⟩
  intro hok
  have := (h.2.mp hok) c6bManifest (by decide)
  revert this
  decide

/-! ## Claim C7 -/

def c7goodManifest : ManifestBase :=
  ⟨"good.yaml", .mapping (some "Namespace") (some "ns") none⟩

def c7badManifest : ManifestBase :=
  ⟨"bad.yaml", .parseError "while parsing a block mapping"⟩

/-- C7 counterexample: a manifest whose content fails to parse does NOT get
routed to the Other bucket and processed — `yaml.safe_load` raises inside
the classification loop, the outer handler re-wraps it, and the whole batch
aborts with an error before anything (even the healthy first manifest) is
applied. -/
theorem C7_counterexample :
    (apply_k8s allOkEnv [c7goodManifest, c7badManifest]).2 =
      .error ⟨500, "Failed to apply manifests: while parsing a block mapping"⟩ ∧
    (apply_k8s allOkEnv [c7goodManifest, c7badManifest]).1 = [] := by
  decide

/-- C7 amended: a document that parses to a mapping but lacks a `kind`
field is routed to the Other bucket and is still processed (its file name
appears in the applied log, and the whole batch succeeds when applies
succeed); only a manifest whose content fails to parse aborts the batch
(shown by the counterexample). -/
theorem C7_missing_kind_goes_to_other (env : ApplyEnv) (ms : List ManifestBase)
    (m : ManifestBase) (n ns : Option String)
    (hm : m ∈ ms) (hkind : m.content = Doc.mapping none n ns)
    (hall : ∀ m' ∈ ms, m'.content.isMapping = true)
    (hok : ∀ m' ∈ ms, env m' = .ok) :
    ∃ b, classify ms = .ok b ∧ m ∈ b.other_manifests ∧
      (apply_k8s env ms).2 = .ok () ∧ m.file_name ∈ (apply_k8s env ms).1 := by
  have hcl := classify_spec ms hall
  have hother : isOtherKind m = true := by
    simp +decide [isOtherKind, Doc.kindLower, hkind, pyLower]
  refine ⟨_, hcl, ?_, ?_, ?_⟩
  · exact List.mem_filter.mpr ⟨hm, hother⟩
  · exact (apply_k8s_all_ok env ms hall hok).2
  · rw [(apply_k8s_all_ok env ms hall hok).1]
    exact List.mem_map_of_mem _
      (by
        simp only [List.mem_append]
        exact Or.inr (List.mem_filter.mpr ⟨hm, hother⟩))

/-- C7 amended witness: a concrete kind-less manifest is classified to
Other and applied after the recognized kinds. -/
theorem C7_missing_kind_goes_to_other_witness :
    ∃ b, classify [nsManifest, ⟨"nokind.yaml", .mapping none (some "x") none⟩] = .ok b ∧
      (⟨"nokind.yaml", .mapping none (some "x") none⟩ : ManifestBase) ∈ b.other_manifests ∧
      (apply_k8s allOkEnv [nsManifest, ⟨"nokind.yaml", .mapping none (some "x") none⟩]).2 =
        .ok () ∧
      "nokind.yaml" ∈
        (apply_k8s allOkEnv [nsManifest, ⟨"nokind.yaml", .mapping none (some "x") none⟩]).1 :=
  C7_missing_kind_goes_to_other allOkEnv _ _ (some "x") none
    (by decide) rfl (by decide) (by decide)

/-! ## Claim C8 -/

def c8dep1 : ManifestBase :=
  ⟨"d1.yaml", .mapping (some "Deployment") (some "a") none⟩

def c8dep2 : ManifestBase :=
  ⟨"d2.yaml", .mapping (some "Deployment") (some "b") none⟩

/-- An environment where deleting deployment "a" fails with an error that is
not a "not found" condition, and every other deletion succeeds. -/
def c8Env : DeleteEnv := fun c =>
  match c with
  | .deleteDeployment (some "a") _ => .exc "forbidden"
  | _ => .ok

/-- C8 counterexample: a per-resource failure other than "not found" does
NOT leave the remaining resources attempted — the raised `HTTPException`
propagates to the outer handler and aborts the loop.  With two deployment
manifests where deleting the first fails ("forbidden"), the deletion of the
second is never attempted. -/
theorem C8_counterexample :
    (delete_k8s c8Env [c8dep1, c8dep2]).1 =
      [DeleteCall.deleteDeployment (some "a") "default"] ∧
    DeleteCall.deleteDeployment (some "b") "default" ∉ (delete_k8s c8Env [c8dep1, c8dep2]).1 ∧
    (delete_k8s c8Env [c8dep1, c8dep2]).2 =
      .error ⟨500, "Failed to delete manifests: 500: Failed to delete deployment a: forbidden"⟩ := by
  decide

/-- C8 amended: "not found" on delete is treated as success (the error is
swallowed and the loop continues), so when every delete either succeeds or
fails with a "not found" message, every resource in the set with a deletion
branch is attempted and the operation raises nothing; but any other
per-resource failure raises immediately and aborts deletion of the
remaining resources (shown by the counterexample). -/
theorem C8_idempotent_delete (env : DeleteEnv) (ms : List ManifestBase)
    (hparse : ∀ m ∈ ms, m.content.isMapping = true)
    (hbenign : ∀ c, benign env c) :
    ∃ b, classify ms = .ok b ∧
      (delete_k8s env ms).2 = .ok () ∧
      (delete_k8s env ms).1 = (deletePlan b).filterMap plannedCall := by
  have hcl := classify_spec ms hparse
  refine ⟨_, hcl, ?_⟩
  have hrun := runDeletes_all_benign env
    (deletePlan
      { namespace_manifests := ms.filter (fun m => m.content.kindLower == "namespace")
        service_manifests := ms.filter (fun m => m.content.kindLower == "service")
        deployment_manifests := ms.filter (fun m => m.content.kindLower == "deployment")
        ingress_manifests := ms.filter (fun m => m.content.kindLower == "ingress")
        other_manifests := ms.filter isOtherKind })
    (fun p _ c _ _ => hbenign c)
  simp [delete_k8s, hcl, hrun]

/-- An environment in which every deletion fails with a "not found" error
(the resources no longer exist on the cluster). -/
def c8GoneEnv : DeleteEnv := fun _ => .exc "Not Found: the object does not exist"

/-- C8 witness: deleting a manifest set whose resources no longer exist
succeeds without error, with every deletion attempted. -/
theorem C8_idempotent_delete_witness :
    ∃ b, classify [c8dep1, c8dep2, nsManifest] = .ok b ∧
      (delete_k8s c8GoneEnv [c8dep1, c8dep2, nsManifest]).2 = .ok () ∧
      (delete_k8s c8GoneEnv [c8dep1, c8dep2, nsManifest]).1 =
        (deletePlan b).filterMap plannedCall :=
  C8_idempotent_delete c8GoneEnv [c8dep1, c8dep2, nsManifest] (by decide)
    (fun c => Or.inr ⟨"Not Found: the object does not exist", rfl, by decide⟩)

/-! ## Claim C10 -/

/-- C10: a manifest in the Other bucket whose lower-cased kind is neither
"configmap" nor "secret" is silently skipped by `delete_k8s`: no deletion
call is made for it, no error is raised for it, and the whole operation
behaves exactly as if the manifest were absent. -/
theorem C10_other_kind_silently_skipped (env : DeleteEnv)
    (pre post : List ManifestBase) (w : ManifestBase) (k : String)
    (n ns : Option String)
    (hw : w.content = Doc.mapping (some k) n ns)
    (hk : pyLower k ∉
      (["namespace", "service", "deployment", "ingress", "configmap", "secret"] :
        List String))
    (hparse : ∀ m ∈ pre ++ post, m.content.isMapping = true) :
    delete_k8s env (pre ++ w :: post) = delete_k8s env (pre ++ post) := by
  have hwk : w.content.kindLower = pyLower k := by rw [hw]; rfl
  have hparse' : ∀ m ∈ pre ++ w :: post, m.content.isMapping = true := by
    intro m hm
    rcases List.mem_append.mp hm with h | h
    · exact hparse m (List.mem_append.mpr (Or.inl h))
    · rcases List.mem_cons.mp h with rfl | h
      · rw [hw]; rfl
      · exact hparse m (List.mem_append.mpr (Or.inr h))
  have hns : (w.content.kindLower == "namespace") = false := by
    simp [hwk]; intro hcontra; exact hk (by rw [← hcontra]; simp)
  have hsv : (w.content.kindLower == "service") = false := by
    simp [hwk]; intro hcontra; exact hk (by rw [← hcontra]; simp)
  have hdp : (w.content.kindLower == "deployment") = false := by
    simp [hwk]; intro hcontra; exact hk (by rw [← hcontra]; simp)
  have hin : (w.content.kindLower == "ingress") = false := by
    simp [hwk]; intro hcontra; exact hk (by rw [← hcontra]; simp)
  have hcm : (w.content.kindLower == "configmap") = false := by
    simp [hwk]; intro hcontra; exact hk (by rw [← hcontra]; simp)
  have hsc : (w.content.kindLower == "secret") = false := by
    simp [hwk]; intro hcontra; exact hk (by rw [← hcontra]; simp)
  have hother : isOtherKind w = true := by
    simp [isOtherKind, hns, hsv, hdp, hin]
  have hclL := classify_spec (pre ++ w :: post) hparse'
  have hclR := classify_spec (pre ++ post) hparse
  have hplanw : planOther w = .skip := by
    simp [planOther, hcm, hsc]
  simp only [delete_k8s, hclL, hclR]
  have hfns : ∀ (p : ManifestBase → Bool), p w = false →
      (pre ++ w :: post).filter p = (pre ++ post).filter p := by
    intro p hp
    simp [List.filter_append, List.filter_cons, hp]
  rw [hfns _ hns, hfns _ hsv, hfns _ hdp, hfns _ hin]
  have hoth : (pre ++ w :: post).filter isOtherKind =
      pre.filter isOtherKind ++ w :: post.filter isOtherKind := by
    simp [List.filter_append, List.filter_cons, hother]
  rw [hoth]
  have hplan :
      deletePlan
        { namespace_manifests := (pre ++ post).filter (fun m => m.content.kindLower == "namespace")
          service_manifests := (pre ++ post).filter (fun m => m.content.kindLower == "service")
          deployment_manifests := (pre ++ post).filter (fun m => m.content.kindLower == "deployment")
          ingress_manifests := (pre ++ post).filter (fun m => m.content.kindLower == "ingress")
          other_manifests := pre.filter isOtherKind ++ w :: post.filter isOtherKind } =
      (((pre ++ post).filter (fun m => m.content.kindLower == "deployment")).map planDeployment ++
        ((pre ++ post).filter (fun m => m.content.kindLower == "service")).map planService ++
        ((pre ++ post).filter (fun m => m.content.kindLower == "ingress")).map planIngress ++
        ((pre ++ post).filter (fun m => m.content.kindLower == "namespace")).map planNamespace ++
        (pre.filter isOtherKind).map planOther) ++
        PlannedDelete.skip :: (post.filter isOtherKind).map planOther := by
    simp [deletePlan, hplanw, List.append_assoc]
  rw [hplan, runDeletes_skip_middle]
  have hplan2 :
      ((((pre ++ post).filter (fun m => m.content.kindLower == "deployment")).map planDeployment ++
        ((pre ++ post).filter (fun m => m.content.kindLower == "service")).map planService ++
        ((pre ++ post).filter (fun m => m.content.kindLower == "ingress")).map planIngress ++
        ((pre ++ post).filter (fun m => m.content.kindLower == "namespace")).map planNamespace ++
        (pre.filter isOtherKind).map planOther) ++
        (post.filter isOtherKind).map planOther) =
      deletePlan
        { namespace_manifests := (pre ++ post).filter (fun m => m.content.kindLower == "namespace")
          service_manifests := (pre ++ post).filter (fun m => m.content.kindLower == "service")
          deployment_manifests := (pre ++ post).filter (fun m => m.content.kindLower == "deployment")
          ingress_manifests := (pre ++ post).filter (fun m => m.content.kindLower == "ingress")
          other_manifests := (pre ++ post).filter isOtherKind } := by
    simp [deletePlan, List.filter_append, List.append_assoc]
  rw [hplan2]

/-- C10 witness: a CronJob manifest between two deletable manifests changes
nothing about the deletion run. -/
theorem C10_other_kind_silently_skipped_witness :
    delete_k8s c8GoneEnv
        [c8dep1, ⟨"job.yaml", .mapping (some "CronJob") (some "x") none⟩, nsManifest] =
      delete_k8s c8GoneEnv [c8dep1, nsManifest] :=
  C10_other_kind_silently_skipped c8GoneEnv [c8dep1] [nsManifest] _ "CronJob"
    (some "x") none rfl (by decide) (by decide)

/-! ## Claim C9 -/

theorem getAllLoop_eq_filterMap (env : StatusEnv) (apps : List App) :
    getAllLoop env apps = apps.filterMap (fun a => (env a).toOption) := by
  induction apps with
  | nil => rfl
  | cons a rest ih =>
      cases h : env a <;>
        simp [getAllLoop, h, List.filterMap_cons, Except.toOption, ih]

def c9AppA : App := ⟨1, "app-a", "", false, 0, 0, none, 1⟩

def c9AppB : App := ⟨2, "app-b", "", false, 0, 0, none, 1⟩

def c9AppC : App := ⟨3, "app-c", "", false, 0, 0, none, 1⟩

/-- An environment in which the cluster query for `app-b` fails and the
other two succeed. -/
def c9Env : StatusEnv := fun a =>
  if a.id == 2 then .error ⟨500, "Failed to get deployment status: boom"⟩
  else .ok ⟨a.id, a.name⟩

/-- C9: `get_all_applications_status` never raises because of a
per-application failure — it returns exactly the statuses of the
applications whose query succeeded, in order; in particular, over three
applications where one cluster query fails, exactly two results are
returned and the call returns successfully. -/
theorem C9_batch_status_skips_failures :
    (∀ (env : StatusEnv) (apps : List App),
      get_all_applications_status env apps =
        .ok (apps.filterMap (fun a => (env a).toOption))) ∧
    get_all_applications_status c9Env [c9AppA, c9AppB, c9AppC] =
      .ok [⟨1, "app-a"⟩, ⟨3, "app-c"⟩] ∧
    (getAllLoop c9Env [c9AppA, c9AppB, c9AppC]).length = 2 := by
  refine ⟨?_, by decide, by decide⟩
  intro env apps
  rw [get_all_applications_status, getAllLoop_eq_filterMap]

/-! ## Shared facts about row updates -/

theorem map_field_eq {β : Type} (f : Dep → β) (g : Dep → Dep)
    (hg : ∀ d, f (g d) = f d) (l : List Dep) :
    (l.map g).map f = l.map f := by
  induction l with
  | nil => rfl
  | cons d rest ih => simp [hg d, ih]

theorem map_ext_dep {f g : Dep → Dep} (h : ∀ d, f d = g d) (l : List Dep) :
    l.map f = l.map g :=
  congrArg (fun fn => l.map fn) (funext h)

/-- A deployment row-builder for concrete databases (the resource-spec
fields are irrelevant to the workflow properties). -/
def mkDep (id appId : Nat) (st : DeploymentState) (applied : Bool)
    (created : Nat) : Dep :=
  { id := id
    domain_name := "d"
    cpu_requests := "100m"
    memory_requests := "128Mi"
    cpu_limits := "200m"
    memory_limits := "256Mi"
    port := 8080
    image_url := some "img"
    replicas := 1
    message := none
    comment := none
    state := st
    is_applied := applied
    created_at := created
    updated_at := created
    deleted_at := none
    application_id := appId
    user_id := 1
    admin_id := none }

/-! ## Claim C4 -/

def c4db : DB :=
  { users := [1]
    applications := [⟨1, "app", "demo", true, 0, 0, none, 1⟩]
    deployments := [mkDep 2 1 .REQUEST false 1, mkDep 1 1 .APPROVAL true 0]
    manifests := [] }

/-- C4 counterexample: rolling back to a deployment that is not in APPROVAL
state does fail without a cluster call, but the surfaced error is not the
InvalidState rejection: the endpoint's 400 "only approved deployments can
be rolled back" is caught by its own catch-all handler and re-wrapped into
a 500 whose detail merely embeds the 400 message. -/
theorem C4_counterexample :
    (Endpoints.rollback_deployment allOkEnv c4db 2).1 =
      .error ⟨500,
        "Failed to rollback deployment: 400: only approved deployments can be rolled back"⟩ ∧
    (∀ e, (Endpoints.rollback_deployment allOkEnv c4db 2).1 = .error e →
      e.status_code ≠ 400) ∧
    (Endpoints.rollback_deployment allOkEnv c4db 2).2 = false := by
  refine ⟨by decide, ?_, by decide⟩
  intro e he
  have h1 : (Endpoints.rollback_deployment allOkEnv c4db 2).1 =
      .error ⟨500,
        "Failed to rollback deployment: 400: only approved deployments can be rolled back"⟩ := by
    decide
  rw [h1] at he
  cases he
  decide

/-- C4 amended: a rollback whose target is not in APPROVAL state fails with
an error (internally an InvalidState/400 rejection, re-wrapped by the
catch-all into a 500), performs no cluster apply call, and leaves all
persisted records unchanged (the error return carries no database
mutation). -/
theorem C4_rollback_non_approval_rejected (env : ApplyEnv) (db : DB)
    (did : Nat) (dep : Dep)
    (hd : CRUDDeployment.get db did = some dep)
    (hstate : dep.state ≠ .APPROVAL) :
    (Endpoints.rollback_deployment env db did).2 = false ∧
    ∃ e, (Endpoints.rollback_deployment env db did).1 = .error e ∧
      e.status_code = 500 := by
  have hb : (dep.state != DeploymentState.APPROVAL) = true := by
    simp [bne]
    exact hstate
  simp only [Endpoints.rollback_deployment, hd]
  cases hga : CRUDDeployment.get_applied db dep.application_id with
  | none => exact ⟨rfl, _, rfl, rfl⟩
  | some cur =>
      simp only [hb]
      exact ⟨rfl, _, rfl, rfl⟩

/-- C4 witness: the amended claim at the concrete database. -/
theorem C4_rollback_non_approval_rejected_witness :
    (Endpoints.rollback_deployment allOkEnv c4db 2).2 = false ∧
    ∃ e, (Endpoints.rollback_deployment allOkEnv c4db 2).1 = .error e ∧
      e.status_code = 500 :=
  C4_rollback_non_approval_rejected allOkEnv c4db 2 (mkDep 2 1 .REQUEST false 1)
    (by decide) (by decide)

/-! ## Claim C5 -/

/-- C5: a successful rollback changes only the `is_applied` flags — the
currently applied deployment's to false and the target's to true; every
other field of every deployment row (notably `state`), and the other
tables, are untouched. -/
theorem C5_rollback_frame (env : ApplyEnv) (db : DB) (did : Nat)
    (prev cur : Dep)
    (hd : CRUDDeployment.get db did = some prev)
    (hga : CRUDDeployment.get_applied db prev.application_id = some cur)
    (hstate : prev.state = .APPROVAL)
    (hdiff : cur.id ≠ prev.id)
    (hnodup : (db.deployments.map Dep.id).Nodup)
    (hok : (apply_k8s env (depManifests db prev.id)).2 = .ok ()) :
    ∃ db', (Endpoints.rollback_deployment env db did).1 = .ok db' ∧
      (Endpoints.rollback_deployment env db did).2 = true ∧
      db'.users = db.users ∧ db'.applications = db.applications ∧
      db'.manifests = db.manifests ∧
      db'.deployments = db.deployments.map (fun d =>
        if d.id == cur.id && d.deleted_at == none then { d with is_applied := false }
        else if d.id == prev.id && d.deleted_at == none then { d with is_applied := true }
        else d) ∧
      db'.deployments.map Dep.state = db.deployments.map Dep.state := by
  have hb : (prev.state != DeploymentState.APPROVAL) = false := by
    rw [hstate]; rfl
  have hcount1 := countP_key_le_one db.deployments hnodup cur.id
    (fun d => d.deleted_at == none)
  have e1 : (CRUDDeployment.update_applied db cur.id false).deployments =
      db.deployments.map (fun d =>
        if d.id == cur.id && d.deleted_at == none then { d with is_applied := false }
        else d) :=
    updateFirst_eq_map _ hcount1
  have hid1 : ∀ d : Dep,
      ((fun d => if d.id == cur.id && d.deleted_at == none
          then { d with is_applied := false } else d) d).id = d.id := by
    intro d
    by_cases h : (d.id == cur.id && d.deleted_at == none) = true <;> simp [h]
  have hnodup1 :
      (((CRUDDeployment.update_applied db cur.id false).deployments).map Dep.id).Nodup := by
    rw [e1, map_field_eq Dep.id _ hid1]
    exact hnodup
  have hcount2 := countP_key_le_one
    (CRUDDeployment.update_applied db cur.id false).deployments hnodup1 prev.id
    (fun d => d.deleted_at == none)
  have e2 : (CRUDDeployment.update_applied
        (CRUDDeployment.update_applied db cur.id false) prev.id true).deployments =
      (CRUDDeployment.update_applied db cur.id false).deployments.map (fun d =>
        if d.id == prev.id && d.deleted_at == none then { d with is_applied := true }
        else d) :=
    updateFirst_eq_map _ hcount2
  have hpoint : ∀ d : Dep,
      (fun d => if d.id == prev.id && d.deleted_at == none
          then { d with is_applied := true } else d)
        ((fun d => if d.id == cur.id && d.deleted_at == none
          then { d with is_applied := false } else d) d) =
      (if d.id == cur.id && d.deleted_at == none then { d with is_applied := false }
       else if d.id == prev.id && d.deleted_at == none then { d with is_applied := true }
       else d) := by
    intro d
    by_cases h1 : (d.id == cur.id && d.deleted_at == none) = true
    · have h1' := h1
      simp only [Bool.and_eq_true, beq_iff_eq] at h1'
      have hdcur : d.id = cur.id := h1'.1
      have hne : (d.id == prev.id) = false := by
        simp [hdcur]
        exact hdiff
      simp [h1, hne]
    · simp only [h1]
      simp [Bool.not_eq_true] at h1
      simp [h1]
  have hdeps : (CRUDDeployment.update_applied
        (CRUDDeployment.update_applied db cur.id false) prev.id true).deployments =
      db.deployments.map (fun d =>
        if d.id == cur.id && d.deleted_at == none then { d with is_applied := false }
        else if d.id == prev.id && d.deleted_at == none then { d with is_applied := true }
        else d) := by
    rw [e2, e1, List.map_map]
    exact map_ext_dep hpoint db.deployments
  have hstatepres : ∀ d : Dep,
      Dep.state ((fun d =>
        if d.id == cur.id && d.deleted_at == none then { d with is_applied := false }
        else if d.id == prev.id && d.deleted_at == none then { d with is_applied := true }
        else d) d) = Dep.state d := by
    intro d
    by_cases h1 : (d.id == cur.id && d.deleted_at == none) = true <;>
      by_cases h2 : (d.id == prev.id && d.deleted_at == none) = true <;>
      simp [h1, h2]
  have hnc : ¬ ((prev.state != DeploymentState.APPROVAL) = true) := by
    rw [hb]
    simp
  simp only [Endpoints.rollback_deployment, hd, hga]
  rw [if_neg hnc]
  rw [hok]
  exact ⟨_, rfl, rfl, rfl, rfl, rfl, hdeps,
    by rw [hdeps, map_field_eq Dep.state _ hstatepres]⟩

def c5db : DB :=
  { users := [1]
    applications := [⟨1, "app", "demo", true, 0, 0, none, 1⟩]
    deployments := [mkDep 2 1 .APPROVAL true 1, mkDep 1 1 .APPROVAL false 0]
    manifests := [⟨1, "namespace.yaml", .mapping (some "Namespace") (some "app") none, 0, 0, none, 1⟩]
  }

/-- C5 witness: rolling back to deployment 1 (APPROVAL, with deployment 2
currently applied) flips only the two flags and preserves every state. -/
theorem C5_rollback_frame_witness :
    ∃ db', (Endpoints.rollback_deployment allOkEnv c5db 1).1 = .ok db' ∧
      (Endpoints.rollback_deployment allOkEnv c5db 1).2 = true ∧
      db'.users = c5db.users ∧ db'.applications = c5db.applications ∧
      db'.manifests = c5db.manifests ∧
      db'.deployments = c5db.deployments.map (fun d =>
        if d.id == 2 && d.deleted_at == none then { d with is_applied := false }
        else if d.id == 1 && d.deleted_at == none then { d with is_applied := true }
        else d) ∧
      db'.deployments.map Dep.state = c5db.deployments.map Dep.state :=
  C5_rollback_frame allOkEnv c5db 1 (mkDep 1 1 .APPROVAL false 0)
    (mkDep 2 1 .APPROVAL true 1) (by decide) (by decide) rfl (by decide)
    (by decide) (by decide)

/-! ## Claim C3 -/

def c3depIn : DeploymentCreate :=
  ⟨1, "d", "100m", "128Mi", "200m", "256Mi", 8080, some "img", 1, none⟩

/-- A database in which application 1 has 101 deployments: 100 approved
ones (created later) and one in REQUEST state that is the oldest. -/
def c3db : DB :=
  { users := [1]
    applications := [⟨1, "app", "demo", true, 0, 0, none, 1⟩]
    deployments :=
      (List.range 100).map (fun i => mkDep (i + 2) 1 .APPROVAL false (i + 1)) ++
        [mkDep 1 1 .REQUEST false 0]
    manifests := [] }

/-- C3 counterexample: the in-flight guard only inspects the deployments
returned by `get_by_application` with its defaults — the first 100
non-deleted rows ordered by `created_at` descending.  With 101 deployments
whose oldest is still in REQUEST state, the guard misses it and the
creation succeeds, inserting a new deployment record. -/
theorem C3_counterexample :
    (∃ d ∈ c3db.deployments,
      (d.state = .REQUEST ∨ d.state = .RETURN) ∧ d.deleted_at = none) ∧
    Endpoints.request_deployment c3db c3depIn [] 1 500 600 200 =
      .ok { c3db with
              deployments := c3db.deployments ++ [mkRequestedDep c3depIn 1 500 200] } := by
  constructor
  · refine ⟨mkDep 1 1 .REQUEST false 0, ?_, Or.inl rfl, rfl⟩
    exact List.mem_append_right _ (List.mem_singleton.mpr rfl)
  · decide

/-- C3 amended: creation is rejected (a 400 error, raised before any row is
inserted) whenever a deployment in REQUEST or RETURN state appears among
the 100 most recent (by `created_at`, descending) non-deleted deployments
of the application — the window `get_by_application` is called with; an
in-flight deployment outside that window escapes the guard (shown by the
counterexample). -/
theorem C3_inflight_guard (db : DB) (depIn : DeploymentCreate)
    (mans : List ManifestBase) (uid newDepId manIdStart now : Nat) (app : App)
    (happ : CRUDApplication.get db depIn.application_id = some app)
    (hu : db.users.contains uid = true)
    (hinflight : ∃ d ∈ CRUDDeployment.get_by_application db app.id,
        d.state = .REQUEST ∨ d.state = .RETURN) :
    ∃ e, Endpoints.request_deployment db depIn mans uid newDepId manIdStart now =
        .error e ∧ e.status_code = 400 := by
  obtain ⟨d, hdmem, hdstate⟩ := hinflight
  have hex : ∃ x ∈ CRUDDeployment.get_by_application db app.id,
      (x.state == DeploymentState.REQUEST || x.state == DeploymentState.RETURN) = true := by
    refine ⟨d, hdmem, ?_⟩
    rcases hdstate with h | h <;> simp [h]
  have hsome : ((CRUDDeployment.get_by_application db app.id).find?
      (fun d => d.state == DeploymentState.REQUEST ||
        d.state == DeploymentState.RETURN)).isSome = true := by
    rw [List.find?_isSome]
    exact hex
  obtain ⟨d0, hd0⟩ := Option.isSome_iff_exists.mp hsome
  simp only [Endpoints.request_deployment, happ, hu]
  rw [hd0]
  exact ⟨_, rfl, rfl⟩

def c3smallDb : DB :=
  { users := [1]
    applications := [⟨1, "app", "demo", true, 0, 0, none, 1⟩]
    deployments := [mkDep 1 1 .REQUEST false 0]
    manifests := [] }

/-- C3 witness: the guard fires when the in-flight deployment is within the
inspected window. -/
theorem C3_inflight_guard_witness :
    ∃ e, Endpoints.request_deployment c3smallDb c3depIn [] 1 2 3 4 = .error e ∧
      e.status_code = 400 :=
  C3_inflight_guard c3smallDb c3depIn [] 1 2 3 4
    ⟨1, "app", "demo", true, 0, 0, none, 1⟩ (by decide) (by decide)
    ⟨mkDep 1 1 .REQUEST false 0, by decide, Or.inl rfl⟩

/-! ## Claim C2 -/

/-- At most one non-deleted deployment of the application is flagged
applied — the invariant the approval transition relies on and maintains. -/
abbrev atMostOneApplied (db : DB) (appId : Nat) : Prop :=
  ∀ d1 ∈ db.deployments, ∀ d2 ∈ db.deployments,
    d1.application_id = appId → d2.application_id = appId →
    d1.deleted_at = none → d2.deleted_at = none →
    d1.is_applied = true → d2.is_applied = true → d1 = d2

/-- C2: on a transition to APPROVAL, the cluster apply happens before any
persistence: if it fails, the raised error propagates and no database
change occurs (the error return carries no mutation — in the source,
nothing has been committed at that point); if it succeeds, then afterwards
exactly the newly approved deployment among the application's non-deleted
deployments has `is_applied = true` (the previously applied one, if any,
was flipped off first). -/
theorem C2_approval_transition (env : ApplyEnv) (db : DB)
    (did uid now : Nat) (commentIn : Option String) (dep : Dep)
    (hd : CRUDDeployment.get db did = some dep)
    (hu : db.users.contains uid = true)
    (hnodup : (db.deployments.map Dep.id).Nodup)
    (hone : atMostOneApplied db dep.application_id) :
    (∀ e, (apply_k8s env (depManifests db dep.id)).2 = .error e →
        Endpoints.update_state env db did uid .APPROVAL commentIn now = .error e) ∧
    ((apply_k8s env (depManifests db dep.id)).2 = .ok () →
      ∃ db', Endpoints.update_state env db did uid .APPROVAL commentIn now = .ok db' ∧
        ∀ d' ∈ db'.deployments, d'.application_id = dep.application_id →
          d'.deleted_at = none → (d'.is_applied = true ↔ d'.id = did)) := by
  have hpred := List.find?_some hd
  have hdepmem : dep ∈ db.deployments := List.mem_of_find?_eq_some hd
  simp only [Bool.and_eq_true, beq_iff_eq] at hpred
  obtain ⟨hdepid, hdepdel'⟩ := hpred
  constructor
  · intro e he
    simp only [Endpoints.update_state, hu, hd, beq_self_eq_true, if_true]
    rw [he]
    rfl
  · intro hok2
    simp only [Endpoints.update_state, hu, hd, beq_self_eq_true, if_true]
    rw [hok2]
    cases hga : CRUDDeployment.get_applied db dep.application_id with
    | none =>
        have hnoapplied := List.find?_eq_none.mp hga
        have hcount := countP_key_le_one db.deployments hnodup did
          (fun d => d.deleted_at == none)
        have e2 : (CRUDDeployment.update_state db did (some uid)
              DeploymentState.APPROVAL commentIn now).deployments =
            db.deployments.map (fun d =>
              if (d.id == did && d.deleted_at == none) = true then
                { d with
                    admin_id := some uid
                    state := DeploymentState.APPROVAL
                    is_applied := true
                    comment := commentIn
                    updated_at := now }
              else d) :=
          updateFirst_eq_map _ hcount
        refine ⟨_, rfl, ?_⟩
        intro d' hd' happ' hdel'
        have hd'' : d' ∈ (CRUDDeployment.update_state db did (some uid)
            DeploymentState.APPROVAL commentIn now).deployments := hd'
        rw [e2] at hd''
        obtain ⟨d, hdmem2, rfl⟩ := List.mem_map.mp hd''
        by_cases hc : (d.id == did && d.deleted_at == none) = true
        · obtain ⟨hdid, hddel⟩ : d.id = did ∧ d.deleted_at = none := by
            have := hc
            simp only [Bool.and_eq_true, beq_iff_eq] at this
            exact this
          simp [hc, hdid, hddel]
        · simp only [hc, Bool.false_eq_true, if_false] at happ' hdel' ⊢
          have hidne : d.id ≠ did := by
            intro hcontra
            exact hc (by simp [hcontra, hdel'])
          have hnotapp : d.is_applied ≠ true := by
            intro hcontra
            exact hnoapplied d hdmem2 (by simp [happ', hcontra, hdel'])
          simp [hidne, hnotapp]
    | some ad =>
        have hadmem : ad ∈ db.deployments := List.mem_of_find?_eq_some hga
        have hadpred := List.find?_some hga
        simp only [Bool.and_eq_true, beq_iff_eq] at hadpred
        obtain ⟨⟨hadapp, hadapplied⟩, haddel⟩ := hadpred
        have hcount1 := countP_key_le_one db.deployments hnodup ad.id
          (fun d => d.deleted_at == none)
        have e1 : (CRUDDeployment.update_applied db ad.id false).deployments =
            db.deployments.map (fun d =>
              if (d.id == ad.id && d.deleted_at == none) = true then
                { d with is_applied := false }
              else d) :=
          updateFirst_eq_map _ hcount1
        have hid1 : ∀ d : Dep,
            ((fun d => if (d.id == ad.id && d.deleted_at == none) = true then
                { d with is_applied := false } else d) d).id = d.id := by
          intro d
          by_cases h : (d.id == ad.id && d.deleted_at == none) = true <;> simp [h]
        have hnodup1 :
            (((CRUDDeployment.update_applied db ad.id false).deployments).map
              Dep.id).Nodup := by
          rw [e1, map_field_eq Dep.id _ hid1]
          exact hnodup
        have hcount2 := countP_key_le_one
          (CRUDDeployment.update_applied db ad.id false).deployments hnodup1 did
          (fun d => d.deleted_at == none)
        have e2 : (CRUDDeployment.update_state
              (CRUDDeployment.update_applied db ad.id false) did (some uid)
              DeploymentState.APPROVAL commentIn now).deployments =
            (CRUDDeployment.update_applied db ad.id false).deployments.map (fun d =>
              if (d.id == did && d.deleted_at == none) = true then
                { d with
                    admin_id := some uid
                    state := DeploymentState.APPROVAL
                    is_applied := true
                    comment := commentIn
                    updated_at := now }
              else d) :=
          updateFirst_eq_map _ hcount2
        refine ⟨_, rfl, ?_⟩
        intro d' hd' happ' hdel'
        have hd'' : d' ∈ (CRUDDeployment.update_state
            (CRUDDeployment.update_applied db ad.id false) did (some uid)
            DeploymentState.APPROVAL commentIn now).deployments := hd'
        rw [e2, e1, List.map_map] at hd''
        obtain ⟨d, hdmem2, rfl⟩ := List.mem_map.mp hd''
        simp only [Function.comp] at happ' hdel' ⊢
        by_cases hcc : (d.id == ad.id && d.deleted_at == none) = true
        · have hdad : d.id = ad.id ∧ d.deleted_at = none := by
            have := hcc
            simp only [Bool.and_eq_true, beq_iff_eq] at this
            exact this
          by_cases hc : (d.id == did && d.deleted_at == none) = true
          · obtain ⟨hdid, hddel⟩ : d.id = did ∧ d.deleted_at = none := by
              have := hc
              simp only [Bool.and_eq_true, beq_iff_eq] at this
              exact this
            simp only [if_pos hcc]
            simp [hc, hdid, hddel]
          · have hidne : d.id ≠ did := by
              intro hcontra
              exact hc (by simp [hcontra, hdad.2])
            simp only [if_pos hcc]
            simp [hc, hidne]
        · by_cases hc : (d.id == did && d.deleted_at == none) = true
          · obtain ⟨hdid, hddel⟩ : d.id = did ∧ d.deleted_at = none := by
              have := hc
              simp only [Bool.and_eq_true, beq_iff_eq] at this
              exact this
            simp only [if_neg hcc]
            simp [hc, hdid, hddel]
          · simp only [if_neg hcc, if_neg hc] at happ' hdel' ⊢
            have hidne : d.id ≠ did := by
              intro hcontra
              exact hc (by simp [hcontra, hdel'])
            have hnotapp : d.is_applied ≠ true := by
              intro hcontra
              have heq : d = ad :=
                hone d hdmem2 ad hadmem happ' hadapp hdel' haddel hcontra hadapplied
              exact hcc (by simp [heq, haddel])
            simp [hidne, hnotapp]

def c2db : DB :=
  { users := [7]
    applications := [⟨1, "app", "demo", false, 0, 0, none, 1⟩]
    deployments := [mkDep 2 1 .REQUEST false 1, mkDep 1 1 .APPROVAL true 0]
    manifests := [⟨1, "namespace.yaml", .mapping (some "Namespace") (some "app") none, 0, 0, none, 2⟩]
  }

/-- C2 witness: approving deployment 2 while deployment 1 is applied, with
the cluster apply succeeding, leaves exactly deployment 2 applied. -/
theorem C2_approval_transition_witness :
    ∃ db', Endpoints.update_state allOkEnv c2db 2 7 .APPROVAL (some "lgtm") 9 =
        .ok db' ∧
      ∀ d' ∈ db'.deployments, d'.application_id = 1 →
        d'.deleted_at = none → (d'.is_applied = true ↔ d'.id = 2) :=
  (C2_approval_transition allOkEnv c2db 2 7 9 (some "lgtm")
      (mkDep 2 1 .REQUEST false 1) (by decide) (by decide) (by decide)
      (by decide)).2 (by decide)

end YIS

